import Mathlib

/-!
Verification of the traversal and action-triggering engine of
`kindle_download_all.py` (a pywinauto-driven bulk-download script for the
Kindle for PC library list).

Shallow embedding conventions:
* A live UI element's observable attributes (`element_info`) become the
  `ElementInfo` structure; `runtime_id` is an optional integer sequence
  (Python truthiness of an empty tuple is modelled by inspecting emptiness).
* Each pywinauto call that the script wraps in `try/except` — and
  `click_input`, which sits unguarded as the last step of the focus fallback
  chain — is modelled as a fallible outcome (`Except String Unit` for calls
  whose exception would matter, `Option`/`Bool` for presence checks).
* The library control is modelled as an index-addressed accessor
  `Nat → Option ItemEnv`: `library.get_item(i)` raising is `none`.
* Real-time polling (`find_download_menu_item` with a timeout) is abstracted
  to its outcome: the `Option DownloadMenuItem` the search resolves to within
  its window.
* `--max-iterations` and `--start-from` come from `argparse` with
  `type=int`, so they are embedded as `Int`.
-/

/-- Observable accessibility attributes of a list item
(`wrapper.element_info` in the source). `runtime_id` is absent (`none`) when
the attribute is missing; Python's `if runtime_id:` truthiness also treats an
empty sequence as absent. -/
structure ElementInfo where
  runtime_id : Option (List Int)
  name : String
  automation_id : Option String
  control_type : Option String
deriving DecidableEq, Repr

/-- Identity key produced by `item_identity` (source lines 61–73): the Python
tuple `("runtime", tuple(runtime_id))` or
`("fallback", name, automation_id, control_type)`. -/
inductive ElementIdentity where
  | runtime (id : List Int)
  | fallback (name : String) (automationId : Option String) (controlType : Option String)
deriving DecidableEq, Repr

/-- Embedding of `item_identity` (source lines 61–73): prefer the runtime
identifier when it is present and non-empty (Python truthiness), otherwise
build the fallback tuple from name, automation id and control type. -/
def item_identity (info : ElementInfo) : ElementIdentity :=
  match info.runtime_id with
  | some rid =>
      if rid.isEmpty then
        ElementIdentity.fallback info.name info.automation_id info.control_type
      else
        ElementIdentity.runtime rid
  | none => ElementIdentity.fallback info.name info.automation_id info.control_type

instance {ε α : Type} [DecidableEq ε] [DecidableEq α] : DecidableEq (Except ε α) := fun x y =>
  match x, y with
  | Except.ok a, Except.ok b =>
      if h : a = b then isTrue (by rw [h])
      else isFalse (fun he => h (Except.ok.inj he))
  | Except.error a, Except.error b =>
      if h : a = b then isTrue (by rw [h])
      else isFalse (fun he => h (Except.error.inj he))
  | Except.ok _, Except.error _ => isFalse (fun he => Except.noConfusion he)
  | Except.error _, Except.ok _ => isFalse (fun he => Except.noConfusion he)

/-- Outcomes of the four side-effecting calls `focus_item` makes on a wrapper
(source lines 45–58). `Except.ok ()` is a normal return, `Except.error msg`
is a raised exception carrying its message. -/
structure FocusOps where
  scroll_into_view : Except String Unit
  set_focus : Except String Unit
  select : Except String Unit
  click_input : Except String Unit
deriving DecidableEq, Repr

/-- Embedding of `focus_item` (source lines 45–58). The `scroll_into_view`
failure is swallowed (`try/except: pass`); a `set_focus` failure falls back to
`select`; a `select` failure falls back to `click_input` — whose outcome is
NOT wrapped in a `try/except` in the source, so its exception propagates as
the result of `focus_item`. -/
def focus_item (ops : FocusOps) : Except String Unit :=
  match ops.scroll_into_view with
  | _ =>
    match ops.set_focus with
    | Except.ok _ => Except.ok ()
    | Except.error _ =>
      match ops.select with
      | Except.ok _ => Except.ok ()
      | Except.error _ => ops.click_input

/-- Behaviour of the download menu item that `find_download_menu_item`
resolves: whether `invoke()` succeeds and whether `click_input()` succeeds. -/
structure DownloadMenuItem where
  invoke_ok : Bool
  click_ok : Bool
deriving DecidableEq, Repr

/-- The four control paths of `trigger_download_command`
(source lines 163–177). -/
inductive TriggerResult where
  | notFound
  | invoked
  | clicked
  | escaped
deriving DecidableEq, Repr

/-- The boolean the Python function returns on each path: `True` after a
successful `invoke()` or fallback `click_input()`, `False` otherwise. -/
def TriggerResult.ret : TriggerResult → Bool
  | TriggerResult.invoked => true
  | TriggerResult.clicked => true
  | TriggerResult.notFound => false
  | TriggerResult.escaped => false

/-- Embedding of `trigger_download_command` (source lines 163–177): if the
short-timeout search found the item, try `invoke()`; on failure fall back to
`click_input()`; if that also fails, send `{ESC}` and return failure
(`escaped`). If the item was never found, return failure directly
(`notFound`). -/
def trigger_download_command (found : Option DownloadMenuItem) : TriggerResult :=
  match found with
  | none => TriggerResult.notFound
  | some d =>
      if d.invoke_ok then TriggerResult.invoked
      else if d.click_ok then TriggerResult.clicked
      else TriggerResult.escaped

/-- Embedding of `open_context_menu` (source lines 156–160): after sending
Shift+F10 and sleeping, it returns whether `find_download_menu_item` resolved
a menu item within the appearance timeout (`is not None`). -/
def open_context_menu (menu_search : Option DownloadMenuItem) : Bool :=
  menu_search.isSome

/-- Per-item observable outcome of the body of the iteration loop
(source lines 249–257). `focusRaised` records an exception escaping
`focus_item` (unguarded `click_input`), which aborts the whole run. -/
inductive ItemOutcome where
  | focusRaised
  | menuDidNotAppear
  | invoked
  | clicked
  | escFailed
  | downloadNotFound
deriving DecidableEq, Repr

/-- Environment behaviour of one fetched list item: its accessibility
attributes, the outcomes of the focus fallback calls, the result of the
menu-appearance search `find_download_menu_item(MENU_APPEAR_TIMEOUT)` inside
`open_context_menu`, and the result of the re-resolution
`find_download_menu_item(timeout=0.5)` inside `trigger_download_command`. -/
structure ItemEnv where
  info : ElementInfo
  focus : FocusOps
  menu_search : Option DownloadMenuItem
  download_item : Option DownloadMenuItem
deriving DecidableEq, Repr

/-- The outcome of the loop body for one item (source lines 249–257):
`focus_item` first (an exception there aborts the run), then
`open_context_menu`; if the menu did not appear the item is skipped, else
`trigger_download_command` runs and its path is recorded. -/
def item_outcome (e : ItemEnv) : ItemOutcome :=
  match focus_item e.focus with
  | Except.error _ => ItemOutcome.focusRaised
  | Except.ok _ =>
      if open_context_menu e.menu_search then
        match trigger_download_command e.download_item with
        | TriggerResult.invoked => ItemOutcome.invoked
        | TriggerResult.clicked => ItemOutcome.clicked
        | TriggerResult.escaped => ItemOutcome.escFailed
        | TriggerResult.notFound => ItemOutcome.downloadNotFound
      else ItemOutcome.menuDidNotAppear

/-- Why the iteration loop ended: `endOfList` when `library.get_item(index)`
raised, `duplicate` when the fetched item's identity equalled the previous
one, `cap` when `processed_count` reached `max_iterations`, and `crashed`
when `focus_item` raised (the exception propagates out of `iterate_items`). -/
inductive StopReason where
  | endOfList
  | duplicate
  | cap
  | crashed
deriving DecidableEq, Repr

/-- One processed item: its list index, its resolved identity, and the body
outcome. An entry exists exactly when the source incremented
`processed_count` and printed the `[n] Processing` line. -/
structure ProcessedEntry where
  index : Nat
  identity : ElementIdentity
  outcome : ItemOutcome
deriving DecidableEq, Repr

/-- Result of a run of the iteration loop: the stop reason, the value of
`index` when the loop exited (or where the exception was raised), and the
ordered log of processed items. -/
structure IterResult where
  reason : StopReason
  finalIndex : Nat
  log : List ProcessedEntry
deriving DecidableEq, Repr

/-- The `while processed_count < max_iterations` loop of `iterate_items`
(source lines 232–262), with `fuel = max_iterations - processed_count` as
the decreasing measure: fuel 0 means the guard failed, which the source
reports as the iteration cap (lines 264–265). -/
def iterate_loop (env : Nat → Option ItemEnv) : Nat → Nat → Option ElementIdentity → IterResult
  | 0, index, _ => ⟨StopReason.cap, index, []⟩
  | fuel + 1, index, last =>
    match env index with
    | none => ⟨StopReason.endOfList, index, []⟩
    | some e =>
      if last = some (item_identity e.info) then
        ⟨StopReason.duplicate, index, []⟩
      else if item_outcome e = ItemOutcome.focusRaised then
        ⟨StopReason.crashed, index, [⟨index, item_identity e.info, ItemOutcome.focusRaised⟩]⟩
      else
        ⟨(iterate_loop env fuel (index + 1) (some (item_identity e.info))).reason,
         (iterate_loop env fuel (index + 1) (some (item_identity e.info))).finalIndex,
         ⟨index, item_identity e.info, item_outcome e⟩ ::
           (iterate_loop env fuel (index + 1) (some (item_identity e.info))).log⟩

/-- Embedding of `iterate_items` (source lines 227–265): run the loop from
`start_index` with no previous identity and `max_iterations` (an `argparse`
int) worth of fuel; a non-positive cap means the guard fails immediately and
the cap message is printed with zero items processed. -/
def iterate_items (env : Nat → Option ItemEnv) (start_index : Nat) (max_iterations : Int) : IterResult :=
  iterate_loop env max_iterations.toNat start_index none

/-- Source constant `DEFAULT_MAX_ITERATIONS` (line 24), also the safety bound
of the start-index scan when the total is unknown. -/
def DEFAULT_MAX_ITERATIONS : Nat := 10000

/-- The linear scan shared by both branches of `find_start_index`
(source lines 206–224): starting at `idx` with `fuel` indices left to try,
return the first index whose item's identity equals `tid`; stop (returning
`none`) when `get_item` raises or the budget runs out. -/
def scan_for (get_item : Nat → Option ElementInfo) (tid : ElementIdentity) : Nat → Nat → Option Nat
  | _, 0 => none
  | idx, fuel + 1 =>
    match get_item idx with
    | none => none
    | some c =>
        if item_identity c = tid then some idx
        else scan_for get_item tid (idx + 1) fuel

/-- Embedding of `find_start_index` (source lines 200–224): no focused item
gives 0; otherwise scan from 0 — up to `DEFAULT_MAX_ITERATIONS` indices when
the total is unknown (`while idx < DEFAULT_MAX_ITERATIONS`), up to
`total.toNat` when it is known (`for idx in range(total_items)`, empty for a
non-positive total) — and default to 0 when the scan finds nothing. -/
def find_start_index (get_item : Nat → Option ElementInfo) (target : Option ElementInfo)
    (total_items : Option Int) : Nat :=
  match target with
  | none => 0
  | some t =>
    match total_items with
    | none => (scan_for get_item (item_identity t) 0 DEFAULT_MAX_ITERATIONS).getD 0
    | some n => (scan_for get_item (item_identity t) 0 n.toNat).getD 0

/-- Number of indices the `find_start_index` scan may examine. -/
def scan_bound (total_items : Option Int) : Nat :=
  match total_items with
  | none => DEFAULT_MAX_ITERATIONS
  | some n => n.toNat

/-- Embedding of the explicit `--start-from` resolution in `main`
(source lines 303–309): 1-based to 0-based with a floor at 0, then, when a
total is known and the candidate is not below it, clamp to
`max(total - 1, 0)`. -/
def resolve_explicit_start_index (start_from : Int) (total_items : Option Int) : Int :=
  let start_index := max (start_from - 1) 0
  match total_items with
  | none => start_index
  | some total =>
      if start_index ≥ total then max (total - 1) 0 else start_index

/-! Concrete hosts used by witnesses and counterexamples. -/

/-- A call that returns normally. -/
def okC : Except String Unit := Except.ok ()

/-- A call that raises. -/
def errC : Except String Unit := Except.error "boom"

/-- Focus operations that all succeed. -/
def focusAllOk : FocusOps := ⟨okC, okC, okC, okC⟩

/-- Focus operations that all raise. -/
def focusAllFail : FocusOps := ⟨errC, errC, errC, errC⟩

/-- A download menu item whose `invoke()` and `click_input()` both work. -/
def dmOk : DownloadMenuItem := ⟨true, true⟩

/-- A list item exposing runtime identifier `[i]`. -/
def runtimeInfo (i : Nat) : ElementInfo :=
  ⟨some [(i : Int)], "book", none, some "ListItem"⟩

/-- A fully well-behaved item with runtime identity `[i]`. -/
def goodItem (i : Nat) : ItemEnv := ⟨runtimeInfo i, focusAllOk, some dmOk, some dmOk⟩

/-- A library with `n` well-behaved, uniquely identified items. -/
def envGood (n : Nat) : Nat → Option ItemEnv :=
  fun i => if i < n then some (goodItem i) else none

/-- A library from which no item can be fetched. -/
def envEmpty : Nat → Option ItemEnv := fun _ => none

/-- A two-item library whose first item's context-menu search times out. -/
def envNoMenu : Nat → Option ItemEnv := fun i =>
  if i = 0 then some ⟨runtimeInfo 0, focusAllOk, none, none⟩
  else if i = 1 then some (goodItem 1) else none

/-- A library where indices 0 and 1 resolve to the same identity
(a virtualized list that stopped advancing). -/
def envDupAdj : Nat → Option ItemEnv :=
  fun i => if i ≤ 1 then some (goodItem 0) else none

/-- A three-item library where positions 0 and 2 share an identity but no two
adjacent positions do. -/
def envABA : Nat → Option ItemEnv := fun i =>
  if i = 0 then some (goodItem 0)
  else if i = 1 then some (goodItem 1)
  else if i = 2 then some (goodItem 0) else none

/-- An `n`-item library exposed as plain element infos, item `i` carrying the
runtime identity `[i]` (so all identities are pairwise distinct). -/
def runtimeLibrary (n : Nat) : Nat → Option ElementInfo :=
  fun i => if i < n then some (runtimeInfo i) else none

/-- A 10001-item library (indices 0 … 10000) with pairwise distinct runtime
identities, one longer than the unknown-total scan bound. -/
def bigList : Nat → Option ElementInfo := runtimeLibrary (DEFAULT_MAX_ITERATIONS + 1)

/-- A three-item library exposed as plain element infos. -/
def threeList : Nat → Option ElementInfo := runtimeLibrary 3

/-- Pointwise agreement of two library behaviours on everything except the
context-menu and download-command search results. -/
def sameItemCore : Option ItemEnv → Option ItemEnv → Prop
  | none, none => True
  | some a, some b => a.info = b.info ∧ a.focus = b.focus
  | _, _ => False

/-- C9 exactly as the claim states it: over every library of uniquely
identified items, whenever the focused item's identity equals the identity of
the item at 0-based position `k`, start-index resolution returns `k`, with no
proviso about the scan bound. -/
def C9_statement : Prop :=
  ∀ (get_item : Nat → Option ElementInfo) (target : ElementInfo)
    (total_items : Option Int) (k : Nat) (it : ElementInfo),
    (∀ i j a b, get_item i = some a → get_item j = some b → i ≠ j →
      item_identity a ≠ item_identity b) →
    get_item k = some it →
    item_identity it = item_identity target →
    find_start_index get_item (some target) total_items = k

/-! Structural lemmas about the iteration loop. -/

/-- The processed indices are exactly the consecutive block starting at the
loop's entry index. -/
theorem iterate_loop_log_indices (env : Nat → Option ItemEnv) :
    ∀ (f i : Nat) (l : Option ElementIdentity),
      (iterate_loop env f i l).log.map ProcessedEntry.index =
        List.range' i (iterate_loop env f i l).log.length := by
  intro f
  induction f with
  | zero => intro i l; simp [iterate_loop]
  | succ f ih =>
    intro i l
    cases hg : env i with
    | none => simp [iterate_loop, hg]
    | some e =>
      simp only [iterate_loop, hg]
      split_ifs with hdup hcrash
      · simp
      · simp [List.range'_succ]
      · simp only [List.map_cons, List.length_cons, List.range'_succ, List.cons.injEq, true_and]
        exact ih (i + 1) (some (item_identity e.info))

/-- The exit value of `index`: one past the last processed index on every
normal exit; equal to the last processed index when `focus_item` raised. -/
theorem iterate_loop_finalIndex (env : Nat → Option ItemEnv) :
    ∀ (f i : Nat) (l : Option ElementIdentity),
      ((iterate_loop env f i l).reason ≠ StopReason.crashed →
        (iterate_loop env f i l).finalIndex = i + (iterate_loop env f i l).log.length) ∧
      ((iterate_loop env f i l).reason = StopReason.crashed →
        (iterate_loop env f i l).finalIndex + 1 = i + (iterate_loop env f i l).log.length) := by
  intro f
  induction f with
  | zero => intro i l; simp [iterate_loop]
  | succ f ih =>
    intro i l
    cases hg : env i with
    | none => simp [iterate_loop, hg]
    | some e =>
      simp only [iterate_loop, hg]
      split_ifs with hdup hcrash
      · simp
      · simp
      · have h := ih (i + 1) (some (item_identity e.info))
        constructor
        · intro hr
          have := h.1 hr
          simp only [List.length_cons]
          omega
        · intro hr
          have := h.2 hr
          simp only [List.length_cons]
          omega

/-- The loop processes at most `fuel` items. -/
theorem iterate_loop_length_le (env : Nat → Option ItemEnv) :
    ∀ (f i : Nat) (l : Option ElementIdentity),
      (iterate_loop env f i l).log.length ≤ f := by
  intro f
  induction f with
  | zero => intro i l; simp [iterate_loop]
  | succ f ih =>
    intro i l
    cases hg : env i with
    | none => simp [iterate_loop, hg]
    | some e =>
      simp only [iterate_loop, hg]
      split_ifs with hdup hcrash
      · simp
      · simp
      · simp only [List.length_cons]
        exact Nat.succ_le_succ (ih (i + 1) (some (item_identity e.info)))

/-- A cap exit means the full fuel budget was consumed: exactly `fuel` items
were processed. -/
theorem iterate_loop_cap_length (env : Nat → Option ItemEnv) :
    ∀ (f i : Nat) (l : Option ElementIdentity),
      (iterate_loop env f i l).reason = StopReason.cap →
      (iterate_loop env f i l).log.length = f := by
  intro f
  induction f with
  | zero => intro i l _; simp [iterate_loop]
  | succ f ih =>
    intro i l
    cases hg : env i with
    | none => simp [iterate_loop, hg]
    | some e =>
      simp only [iterate_loop, hg]
      split_ifs with hdup hcrash
      · simp
      · simp
      · intro hr
        simp only [List.length_cons]
        exact congrArg Nat.succ (ih (i + 1) (some (item_identity e.info)) hr)

/-- Every log entry reflects a real fetch: the library returned an item at
that index, and identity and outcome are computed from it. -/
theorem iterate_loop_mem_log (env : Nat → Option ItemEnv) :
    ∀ (f i : Nat) (l : Option ElementIdentity),
      ∀ en ∈ (iterate_loop env f i l).log,
        ∃ e, env en.index = some e ∧ en.identity = item_identity e.info ∧
          en.outcome = item_outcome e := by
  intro f
  induction f with
  | zero => intro i l en hen; simp [iterate_loop] at hen
  | succ f ih =>
    intro i l en hen
    cases hg : env i with
    | none => simp [iterate_loop, hg] at hen
    | some e =>
      simp only [iterate_loop, hg] at hen
      split_ifs at hen with hdup hcrash
      · simp at hen
      · simp at hen
        subst hen
        exact ⟨e, hg, rfl, hcrash.symm⟩
      · simp only [List.mem_cons] at hen
        rcases hen with hen | hen
        · subst hen
          exact ⟨e, hg, rfl, rfl⟩
        · exact ih (i + 1) (some (item_identity e.info)) en hen

/-- The body outcome is `focusRaised` exactly when `focus_item` raised. -/
theorem item_outcome_focusRaised_iff (e : ItemEnv) :
    item_outcome e = ItemOutcome.focusRaised ↔ focus_item e.focus ≠ Except.ok () := by
  cases hf : focus_item e.focus with
  | ok u =>
    cases u
    simp only [item_outcome, hf, ne_eq, not_true_eq_false, iff_false]
    split_ifs with hm
    · cases htr : trigger_download_command e.download_item <;> simp [htr]
    · simp
  | error msg =>
    simp [item_outcome, hf]

/-- No processed item's identity equals the identity carried in as
`last_identity`, and consecutively processed identities are pairwise
distinct: the loop stops at the first adjacent duplicate it sees. -/
theorem iterate_loop_chain (env : Nat → Option ItemEnv) :
    ∀ (f i : Nat) (l : Option ElementIdentity),
      (∀ eid en, l = some eid → (iterate_loop env f i l).log.head? = some en →
        en.identity ≠ eid) ∧
      List.Chain' (fun x y => x ≠ y)
        ((iterate_loop env f i l).log.map ProcessedEntry.identity) := by
  intro f
  induction f with
  | zero => intro i l; simp [iterate_loop]
  | succ f ih =>
    intro i l
    cases hg : env i with
    | none => simp [iterate_loop, hg]
    | some e =>
      simp only [iterate_loop, hg]
      split_ifs with hdup hcrash
      · simp
      · constructor
        · intro eid en hl hh
          simp only [List.head?_cons, Option.some.injEq] at hh
          subst hh
          intro hid
          exact hdup (hl.trans (congrArg some hid.symm))
        · simp
      · constructor
        · intro eid en hl hh
          simp only [List.head?_cons, Option.some.injEq] at hh
          subst hh
          intro hid
          exact hdup (hl.trans (congrArg some hid.symm))
        · rw [List.map_cons]
          refine List.chain'_cons'.mpr
            ⟨?_, (ih (i + 1) (some (item_identity e.info))).2⟩
          intro y hy
          rw [List.head?_map] at hy
          cases hh : (iterate_loop env f (i + 1)
              (some (item_identity e.info))).log.head? with
          | none => rw [hh] at hy; simp at hy
          | some en' =>
            rw [hh] at hy
            simp only [Option.map_some', Option.mem_def, Option.some.injEq] at hy
            subst hy
            exact Ne.symm ((ih (i + 1) (some (item_identity e.info))).1
              (item_identity e.info) en' rfl hh)

/-- If the loop stops with the duplicate reason then the library really
returned items at the stopping index and the index before it, and their
identities are equal. The hypothesis is the loop invariant: `last_identity`
is the identity of the item fetched at the previous index. -/
theorem iterate_loop_dup_adjacent (env : Nat → Option ItemEnv) :
    ∀ (f i : Nat) (l : Option ElementIdentity),
      (∀ eid, l = some eid →
        ∃ ep, 1 ≤ i ∧ env (i - 1) = some ep ∧ eid = item_identity ep.info) →
      (iterate_loop env f i l).reason = StopReason.duplicate →
      ∃ ep ec, env ((iterate_loop env f i l).finalIndex - 1) = some ep ∧
        env (iterate_loop env f i l).finalIndex = some ec ∧
        item_identity ep.info = item_identity ec.info ∧
        1 ≤ (iterate_loop env f i l).finalIndex := by
  intro f
  induction f with
  | zero => intro i l _ hr; simp [iterate_loop] at hr
  | succ f ih =>
    intro i l hinv
    cases hg : env i with
    | none => simp [iterate_loop, hg]
    | some e =>
      simp only [iterate_loop, hg]
      split_ifs with hdup hcrash
      · intro _
        obtain ⟨ep, h1, hep, hid⟩ := hinv (item_identity e.info) hdup
        exact ⟨ep, e, hep, hg, hid.symm, h1⟩
      · simp
      · intro hr
        refine ih (i + 1) (some (item_identity e.info)) ?_ hr
        intro eid heid
        obtain rfl : item_identity e.info = eid := Option.some.inj heid
        exact ⟨e, Nat.le_add_left 1 i, by simpa using hg, rfl⟩

/-- If no two items at adjacent indices of the library share an identity,
the loop never stops with the duplicate reason. -/
theorem iterate_loop_no_dup (env : Nat → Option ItemEnv) :
    ∀ (f i : Nat) (l : Option ElementIdentity),
      (∀ j a b, env j = some a → env (j + 1) = some b →
        item_identity a.info ≠ item_identity b.info) →
      (∀ eid, l = some eid →
        ∃ ep, 1 ≤ i ∧ env (i - 1) = some ep ∧ eid = item_identity ep.info) →
      (iterate_loop env f i l).reason ≠ StopReason.duplicate := by
  intro f
  induction f with
  | zero => intro i l _ _; simp [iterate_loop]
  | succ f ih =>
    intro i l hadj hinv
    cases hg : env i with
    | none => simp [iterate_loop, hg]
    | some e =>
      simp only [iterate_loop, hg]
      split_ifs with hdup hcrash
      · intro _
        obtain ⟨ep, h1, hep, hid⟩ := hinv (item_identity e.info) hdup
        have hgi : env (i - 1 + 1) = some e := by
          have : i - 1 + 1 = i := by omega
          rw [this]; exact hg
        exact hadj (i - 1) ep e hep hgi hid.symm
      · simp
      · refine ih (i + 1) (some (item_identity e.info)) hadj ?_
        intro eid heid
        obtain rfl : item_identity e.info = eid := Option.some.inj heid
        exact ⟨e, Nat.le_add_left 1 i, by simpa using hg, rfl⟩

/-- A run entered with no previous identity can only report a duplicate
after processing at least one item. -/
theorem iterate_loop_dup_log_ne_nil (env : Nat → Option ItemEnv) :
    ∀ (f i : Nat),
      (iterate_loop env f i none).reason = StopReason.duplicate →
      (iterate_loop env f i none).log ≠ [] := by
  intro f i
  cases f with
  | zero => simp [iterate_loop]
  | succ f =>
    cases hg : env i with
    | none => simp [iterate_loop, hg]
    | some e =>
      by_cases hcrash : item_outcome e = ItemOutcome.focusRaised
      · simp [iterate_loop, hg, hcrash]
      · simp [iterate_loop, hg, hcrash]

/-- Menu-search outcomes never influence the traversal: two runs over
libraries that agree on item availability, attributes and focus behaviour
stop for the same reason at the same index and process the same indices with
the same identities, whatever the menus do. -/
theorem iterate_loop_menu_frame (env env' : Nat → Option ItemEnv)
    (hsame : ∀ j, sameItemCore (env j) (env' j)) :
    ∀ (f i : Nat) (l : Option ElementIdentity),
      (iterate_loop env f i l).reason = (iterate_loop env' f i l).reason ∧
      (iterate_loop env f i l).finalIndex = (iterate_loop env' f i l).finalIndex ∧
      (iterate_loop env f i l).log.map (fun en => (en.index, en.identity)) =
        (iterate_loop env' f i l).log.map (fun en => (en.index, en.identity)) := by
  intro f
  induction f with
  | zero => intro i l; simp [iterate_loop]
  | succ f ih =>
    intro i l
    have hs := hsame i
    cases hg : env i with
    | none =>
      cases hg' : env' i with
      | none => simp [iterate_loop, hg, hg']
      | some e' =>
        rw [hg, hg'] at hs
        exact absurd hs (by simp [sameItemCore])
    | some e =>
      cases hg' : env' i with
      | none =>
        rw [hg, hg'] at hs
        exact absurd hs (by simp [sameItemCore])
      | some e' =>
        rw [hg, hg'] at hs
        obtain ⟨hinfo, hfoc⟩ := hs
        have hid : item_identity e.info = item_identity e'.info := by rw [hinfo]
        have hfr : item_outcome e = ItemOutcome.focusRaised ↔
            item_outcome e' = ItemOutcome.focusRaised := by
          rw [item_outcome_focusRaised_iff, item_outcome_focusRaised_iff, hfoc]
        simp only [iterate_loop, hg, hg']
        rw [← hid]
        by_cases hdup : l = some (item_identity e.info)
        · simp [hdup]
        · simp only [if_neg hdup]
          by_cases hcr : item_outcome e = ItemOutcome.focusRaised
          · have hcr' : item_outcome e' = ItemOutcome.focusRaised := hfr.mp hcr
            simp [hcr, hcr']
          · have hcr' : ¬item_outcome e' = ItemOutcome.focusRaised :=
              fun h => hcr (hfr.mpr h)
            simp only [if_neg hcr, if_neg hcr']
            obtain ⟨h1, h2, h3⟩ := ih (i + 1) (some (item_identity e.info))
            refine ⟨h1, h2, ?_⟩
            simp only [List.map_cons]
            rw [h3]

/-- Soundness of the start-index scan: a returned index lies in the scanned
window and carries an item whose identity matches the target. -/
theorem scan_for_sound (get_item : Nat → Option ElementInfo) (tid : ElementIdentity) :
    ∀ (fuel idx k : Nat), scan_for get_item tid idx fuel = some k →
      idx ≤ k ∧ k < idx + fuel ∧ ∃ c, get_item k = some c ∧ item_identity c = tid := by
  intro fuel
  induction fuel with
  | zero => intro idx k h; simp [scan_for] at h
  | succ fuel ih =>
    intro idx k h
    cases hg : get_item idx with
    | none => simp [scan_for, hg] at h
    | some c =>
      simp only [scan_for, hg] at h
      split_ifs at h with hm
      · obtain rfl : idx = k := Option.some.inj h
        exact ⟨Nat.le_refl _, by omega, c, hg, hm⟩
      · obtain ⟨h1, h2, h3⟩ := ih (idx + 1) k h
        exact ⟨by omega, by omega, h3⟩

/-- Completeness of the start-index scan: if every index before `k` in the
window yields an item that does not match, and `k` is inside the window and
matches, the scan returns `k`. -/
theorem scan_for_first (get_item : Nat → Option ElementInfo) (tid : ElementIdentity) :
    ∀ (fuel idx k : Nat), idx ≤ k → k < idx + fuel →
      (∀ j, idx ≤ j → j < k → ∃ c, get_item j = some c ∧ item_identity c ≠ tid) →
      ∀ ck, get_item k = some ck → item_identity ck = tid →
      scan_for get_item tid idx fuel = some k := by
  intro fuel
  induction fuel with
  | zero => intro idx k h1 h2; omega
  | succ fuel ih =>
    intro idx k h1 h2 hbefore ck hk hm
    rcases Nat.eq_or_lt_of_le h1 with rfl | hlt
    · simp [scan_for, hk, hm]
    · obtain ⟨c, hc, hne⟩ := hbefore idx (Nat.le_refl _) hlt
      simp only [scan_for, hc]
      rw [if_neg hne]
      exact ih (idx + 1) k hlt (by omega)
        (fun j hj1 hj2 => hbefore j (by omega) hj2) ck hk hm

/-- The identity of `runtimeInfo i` is the runtime identity `[i]`. -/
theorem runtimeInfo_identity (i : Nat) :
    item_identity (runtimeInfo i) = ElementIdentity.runtime [(i : Int)] := rfl

/-- Items of a `runtimeLibrary` have pairwise distinct identities. -/
theorem runtimeLibrary_unique (n : Nat) :
    ∀ i j a b, runtimeLibrary n i = some a → runtimeLibrary n j = some b →
      i ≠ j → item_identity a ≠ item_identity b := by
  intro i j a b ha hb hne hid
  rcases Nat.lt_or_ge i n with hi | hi
  · rcases Nat.lt_or_ge j n with hj | hj
    · rw [runtimeLibrary] at ha hb
      rw [if_pos hi] at ha
      rw [if_pos hj] at hb
      obtain rfl : runtimeInfo i = a := Option.some.inj ha
      obtain rfl : runtimeInfo j = b := Option.some.inj hb
      rw [runtimeInfo_identity, runtimeInfo_identity] at hid
      exact hne (by simpa using hid)
    · rw [runtimeLibrary, if_neg (by omega)] at hb
      exact Option.noConfusion hb
  · rw [runtimeLibrary, if_neg (by omega)] at ha
    exact Option.noConfusion ha

/-! Claim theorems. -/

/-- C1, counterexample: the claim says `focus_item` returns normally even
when every fallback step fails, each failure being swallowed. On an item
where scroll-into-view, set-focus, select and the synthesized pointer click
all raise, `focus_item` itself raises (the final `click_input` is not wrapped
in a `try/except`), so it does not return normally. -/
theorem focus_item_all_fail_raises :
    focus_item focusAllFail = Except.error "boom" ∧
    focus_item focusAllFail ≠ Except.ok () := by
  constructor
  · rfl
  · intro h
    exact Except.noConfusion h

/-- C1 (amended): `focus_item` swallows the failures of scroll-into-view
(which never affects the outcome), of set-focus (falling back to select) and
of select (falling back to the synthesized pointer click), and returns
normally exactly when set-focus, select or the pointer click succeeds; but a
failure of the final pointer click is not swallowed — `focus_item` propagates
exactly that click error. -/
theorem focus_item_fallback_spec :
    ∀ sc sf se cl : Except String Unit,
      (∀ sc', focus_item ⟨sc, sf, se, cl⟩ = focus_item ⟨sc', sf, se, cl⟩) ∧
      (focus_item ⟨sc, sf, se, cl⟩ = Except.ok () ↔
        (sf = Except.ok () ∨ se = Except.ok () ∨ cl = Except.ok ())) ∧
      (∀ msg, focus_item ⟨sc, sf, se, cl⟩ = Except.error msg ↔
        (sf ≠ Except.ok () ∧ se ≠ Except.ok () ∧ cl = Except.error msg)) := by
  intro sc sf se cl
  rcases sf with ⟨⟨⟩⟩ | es1 <;> rcases se with ⟨⟨⟩⟩ | es2 <;>
    rcases cl with ⟨⟨⟩⟩ | es3 <;>
      simp [focus_item]

/-- C1, witness: with set-focus and the pointer click failing but select
succeeding, `focus_item` returns normally. -/
theorem focus_item_fallback_spec_witness :
    focus_item ⟨errC, errC, okC, errC⟩ = Except.ok () :=
  ((focus_item_fallback_spec errC errC okC errC).2.1).mpr (Or.inr (Or.inl rfl))

/-- C2, counterexample: with `--start-from 1` and a known total of 0 items,
the claim says the resolved start index equals `total − 1 = −1`; the code
resolves to `max(total − 1, 0) = 0`. -/
theorem resolve_start_index_counterexample :
    resolve_explicit_start_index 1 (some 0) = 0 ∧ (0 : Int) ≠ 0 - 1 := by
  constructor
  · rfl
  · decide

/-- C2 (amended): for every explicit `--start-from` value and every known
non-negative total, if the given 1-based index exceeds the total the resolved
start index is `max(total − 1, 0)` — which equals `total − 1`, the last valid
index, whenever the total is at least 1 — and otherwise it is
`max(given − 1, 0)`; whenever the total is at least 1 the resolved index is
in range for every given value. -/
theorem resolve_start_index_spec :
    ∀ g t : Int, 0 ≤ t →
      (t < g → resolve_explicit_start_index g (some t) = max (t - 1) 0) ∧
      (g ≤ t → resolve_explicit_start_index g (some t) = max (g - 1) 0) ∧
      (1 ≤ t → 0 ≤ resolve_explicit_start_index g (some t) ∧
        resolve_explicit_start_index g (some t) < t ∧
        (t < g → resolve_explicit_start_index g (some t) = t - 1)) := by
  intro g t ht
  simp only [resolve_explicit_start_index]
  split_ifs with h
  · refine ⟨fun _ => rfl, fun hg => ?_, fun h1 => ⟨?_, ?_, fun _ => ?_⟩⟩ <;> omega
  · refine ⟨fun hg => ?_, fun _ => rfl, fun h1 => ⟨?_, ?_, fun hg => ?_⟩⟩ <;> omega

/-- C2, witness: `--start-from 7` on a 5-item library resolves to index 4,
the last valid index. -/
theorem resolve_start_index_spec_witness :
    resolve_explicit_start_index 7 (some 5) = 5 - 1 :=
  ((resolve_start_index_spec 7 5 (by decide)).2.2 (by decide)).2.2 (by decide)

/-- C3: the loop stops with the duplicate reason exactly on two consecutively
fetched items with equal identities. When it does, the library returned items
at the stopping index and at the index before it with equal identities, the
stopping index is past the start and was never processed (the second
occurrence is not processed); the identities actually processed are pairwise
distinct at adjacent positions (the loop stops at the first adjacent match);
and on a library with no identity shared between adjacent indices — in
particular one where only non-adjacent items such as N and N+2 coincide —
the duplicate reason never fires. -/
theorem iterate_items_duplicate_spec :
    ∀ (env : Nat → Option ItemEnv) (start : Nat) (maxIter : Int),
      ((iterate_items env start maxIter).reason = StopReason.duplicate →
        ∃ ep ec,
          env ((iterate_items env start maxIter).finalIndex - 1) = some ep ∧
          env ((iterate_items env start maxIter).finalIndex) = some ec ∧
          item_identity ep.info = item_identity ec.info ∧
          start < (iterate_items env start maxIter).finalIndex ∧
          (iterate_items env start maxIter).finalIndex ∉
            (iterate_items env start maxIter).log.map ProcessedEntry.index) ∧
      List.Chain' (fun x y => x ≠ y)
        ((iterate_items env start maxIter).log.map ProcessedEntry.identity) ∧
      ((∀ i a b, env i = some a → env (i + 1) = some b →
          item_identity a.info ≠ item_identity b.info) →
        (iterate_items env start maxIter).reason ≠ StopReason.duplicate) := by
  intro env start maxIter
  simp only [iterate_items]
  refine ⟨?_, (iterate_loop_chain env maxIter.toNat start none).2, ?_⟩
  · intro hr
    obtain ⟨ep, ec, h1, h2, h3, _⟩ :=
      iterate_loop_dup_adjacent env maxIter.toNat start none
        (fun eid h => Option.noConfusion h) hr
    have hne := iterate_loop_dup_log_ne_nil env maxIter.toNat start hr
    have hlen : 1 ≤ (iterate_loop env maxIter.toNat start none).log.length :=
      Nat.one_le_iff_ne_zero.mpr (fun h0 => hne (List.length_eq_zero.mp h0))
    have hfin : (iterate_loop env maxIter.toNat start none).finalIndex =
        start + (iterate_loop env maxIter.toNat start none).log.length :=
      (iterate_loop_finalIndex env maxIter.toNat start none).1
        (by rw [hr]; decide)
    refine ⟨ep, ec, h1, h2, h3, by omega, ?_⟩
    rw [iterate_loop_log_indices env maxIter.toNat start none, List.mem_range'_1]
    omega
  · intro hadj
    exact iterate_loop_no_dup env maxIter.toNat start none hadj
      (fun eid h => Option.noConfusion h)

/-- C3, witness: on the two-item library whose indices 0 and 1 resolve to
the same identity the loop stops with the duplicate reason at index 1 after
processing only index 0; and on the library with identities A, B, A at
indices 0, 1, 2 (a non-adjacent repeat) the duplicate reason never fires. -/
theorem iterate_items_duplicate_spec_witness :
    (∃ ep ec,
      envDupAdj ((iterate_items envDupAdj 0 10).finalIndex - 1) = some ep ∧
      envDupAdj ((iterate_items envDupAdj 0 10).finalIndex) = some ec ∧
      item_identity ep.info = item_identity ec.info ∧
      0 < (iterate_items envDupAdj 0 10).finalIndex ∧
      (iterate_items envDupAdj 0 10).finalIndex ∉
        (iterate_items envDupAdj 0 10).log.map ProcessedEntry.index) ∧
    (iterate_items envABA 0 10).reason ≠ StopReason.duplicate := by
  constructor
  · exact (iterate_items_duplicate_spec envDupAdj 0 10).1 (by decide)
  · refine (iterate_items_duplicate_spec envABA 0 10).2.2 ?_
    intro i a b ha hb
    rcases Nat.lt_or_ge i 3 with hi | hi
    · interval_cases i <;> simp [envABA] at ha hb <;> subst ha <;> subst hb <;> decide
    · rw [envABA] at ha
      rw [if_neg (by omega), if_neg (by omega), if_neg (by omega)] at ha
      exact Option.noConfusion ha

/-- C4: for every library (so in particular every one with unique
identities), every start index and every cap, the processed indices are
exactly the consecutive block starting at the resolved start index — strictly
increasing, no index skipped, none repeated, one per processed iteration —
and on every exit that is not an exception the final `index` equals the start
plus the number of processed items (`index` and `processed_count` each grew
by exactly one per iteration and never decreased). -/
theorem iterate_items_monotone_spec :
    ∀ (env : Nat → Option ItemEnv) (start : Nat) (maxIter : Int),
      (iterate_items env start maxIter).log.map ProcessedEntry.index =
        List.range' start (iterate_items env start maxIter).log.length ∧
      ((iterate_items env start maxIter).log.map ProcessedEntry.index).Pairwise (· < ·) ∧
      ((iterate_items env start maxIter).reason ≠ StopReason.crashed →
        (iterate_items env start maxIter).finalIndex =
          start + (iterate_items env start maxIter).log.length) := by
  intro env start maxIter
  simp only [iterate_items]
  refine ⟨iterate_loop_log_indices env maxIter.toNat start none, ?_,
    (iterate_loop_finalIndex env maxIter.toNat start none).1⟩
  rw [iterate_loop_log_indices env maxIter.toNat start none]
  exact List.pairwise_lt_range' start _

/-- C4, witness: on a five-item library traversed from index 0 with cap 10,
the processed indices are `[0, 1, 2, 3, 4]` and the loop exits (end of list,
not a crash) with final index `0 + 5`. -/
theorem iterate_items_monotone_spec_witness :
    (iterate_items (envGood 5) 0 10).log.map ProcessedEntry.index =
      List.range' 0 (iterate_items (envGood 5) 0 10).log.length ∧
    (iterate_items (envGood 5) 0 10).finalIndex =
      0 + (iterate_items (envGood 5) 0 10).log.length :=
  ⟨(iterate_items_monotone_spec (envGood 5) 0 10).1,
   (iterate_items_monotone_spec (envGood 5) 0 10).2.2 (by decide)⟩

/-- C5, counterexample: the claim quantifies over every `maxIterations`
value, but `--max-iterations` is an `argparse` int and may be negative. With
`maxIterations = -1` the loop body never runs, zero items are processed —
which is not "at most -1" — and the loop reports the cap reason even though
`processedCount = 0 ≠ -1`, so "exactly maxIterations items were processed"
fails. -/
theorem iterate_items_cap_counterexample :
    (iterate_items envEmpty 0 (-1)).reason = StopReason.cap ∧
    (iterate_items envEmpty 0 (-1)).log.length = 0 ∧ ((0 : Int) ≠ -1) := by
  refine ⟨rfl, rfl, by decide⟩

/-- C5 (amended): for every non-negative `maxIterations` and every library,
the loop terminates after processing at most `maxIterations` items, and when
it stops with the cap reason exactly `maxIterations` items were processed and
the reported stopping index is the start index plus that count. -/
theorem iterate_items_cap_spec :
    ∀ (env : Nat → Option ItemEnv) (start : Nat) (maxIter : Int),
      0 ≤ maxIter →
      ((iterate_items env start maxIter).log.length : Int) ≤ maxIter ∧
      ((iterate_items env start maxIter).reason = StopReason.cap →
        ((iterate_items env start maxIter).log.length : Int) = maxIter ∧
        (iterate_items env start maxIter).finalIndex =
          start + (iterate_items env start maxIter).log.length) := by
  intro env start maxIter hpos
  simp only [iterate_items]
  constructor
  · have h := iterate_loop_length_le env maxIter.toNat start none
    omega
  · intro hr
    have hlen := iterate_loop_cap_length env maxIter.toNat start none hr
    refine ⟨by omega, ?_⟩
    exact (iterate_loop_finalIndex env maxIter.toNat start none).1 (by rw [hr]; decide)

/-- C5, witness: cap 2 on a ten-item library stops with the cap reason after
exactly two processed items, at final index 0 + 2. -/
theorem iterate_items_cap_spec_witness :
    ((iterate_items (envGood 10) 0 2).log.length : Int) ≤ 2 ∧
    ((iterate_items (envGood 10) 0 2).log.length : Int) = 2 ∧
    (iterate_items (envGood 10) 0 2).finalIndex =
      0 + (iterate_items (envGood 10) 0 2).log.length :=
  ⟨(iterate_items_cap_spec (envGood 10) 0 2 (by decide)).1,
   (iterate_items_cap_spec (envGood 10) 0 2 (by decide)).2 (by decide)⟩

/-- C6: a runtime-kind identity never equals a fallback-kind identity,
whatever their payloads (in the source the tuples start with distinct tags
and have different lengths), and two identities of the same kind are equal
exactly when all their components are equal. -/
theorem element_identity_kinds_spec :
    (∀ (l : List Int) (n : String) (a c : Option String),
      ElementIdentity.runtime l ≠ ElementIdentity.fallback n a c) ∧
    (∀ l l' : List Int,
      ElementIdentity.runtime l = ElementIdentity.runtime l' ↔ l = l') ∧
    (∀ (n n' : String) (a a' c c' : Option String),
      ElementIdentity.fallback n a c = ElementIdentity.fallback n' a' c' ↔
        n = n' ∧ a = a' ∧ c = c') := by
  refine ⟨?_, ?_, ?_⟩
  · intro l n a c h
    exact ElementIdentity.noConfusion h
  · intro l l'
    simp
  · intro n n' a a' c c'
    simp

/-- C6, witness: the runtime identity `[1]` differs from the fallback
identity with name "book", and equal-component identities coincide. -/
theorem element_identity_kinds_spec_witness :
    ElementIdentity.runtime [1] ≠ ElementIdentity.fallback "book" none none ∧
    (ElementIdentity.runtime [1] = ElementIdentity.runtime [1] ↔ ([1] : List Int) = [1]) :=
  ⟨element_identity_kinds_spec.1 [1] "book" none none,
   element_identity_kinds_spec.2.1 [1] [1]⟩

/-- C7: when the command menu item does not appear within the appearance
timeout, `open_context_menu` returns false; an item processed under a
timed-out menu search (its focus step having returned) is logged with the
"menu did not appear, skipping" outcome — in particular no trigger outcome,
since `trigger_download_command` is never reached for it; and the traversal
is completely insensitive to menu behaviour: runs over libraries that agree
on item availability, attributes and focus stop for the same reason at the
same index and process the same indices and identities. -/
theorem open_context_menu_timeout_spec :
    (open_context_menu none = false) ∧
    (∀ (env : Nat → Option ItemEnv) (start : Nat) (maxIter : Int)
        (i : Nat) (e : ItemEnv) (en : ProcessedEntry),
      env i = some e → e.menu_search = none → focus_item e.focus = Except.ok () →
      en ∈ (iterate_items env start maxIter).log → en.index = i →
      en.outcome = ItemOutcome.menuDidNotAppear) ∧
    (∀ (env env' : Nat → Option ItemEnv) (start : Nat) (maxIter : Int),
      (∀ j, sameItemCore (env j) (env' j)) →
      (iterate_items env start maxIter).reason = (iterate_items env' start maxIter).reason ∧
      (iterate_items env start maxIter).finalIndex =
        (iterate_items env' start maxIter).finalIndex ∧
      (iterate_items env start maxIter).log.map (fun en => (en.index, en.identity)) =
        (iterate_items env' start maxIter).log.map (fun en => (en.index, en.identity))) := by
  refine ⟨rfl, ?_, ?_⟩
  · intro env start maxIter i e en hi hmenu hfoc hmem hidx
    obtain ⟨e', he', _, hout⟩ :=
      iterate_loop_mem_log env maxIter.toNat start none en hmem
    rw [hidx] at he'
    obtain rfl : e = e' := Option.some.inj (hi.symm.trans he')
    rw [hout]
    simp [item_outcome, hfoc, hmenu, open_context_menu]
  · intro env env' start maxIter hsame
    exact iterate_loop_menu_frame env env' hsame maxIter.toNat start none

/-- C7, witness: on the two-item library whose first item's menu search times
out, the first logged entry carries the "menu did not appear" outcome, and
the run stops for the same reason as the same library with working menus. -/
theorem open_context_menu_timeout_spec_witness :
    ((iterate_items envNoMenu 0 10).log.headD
        ⟨99, ElementIdentity.runtime [], ItemOutcome.invoked⟩).outcome =
      ItemOutcome.menuDidNotAppear ∧
    (iterate_items envNoMenu 0 10).reason = (iterate_items (envGood 2) 0 10).reason := by
  constructor
  · exact open_context_menu_timeout_spec.2.1 envNoMenu 0 10 0
      ⟨runtimeInfo 0, focusAllOk, none, none⟩
      ((iterate_items envNoMenu 0 10).log.headD
        ⟨99, ElementIdentity.runtime [], ItemOutcome.invoked⟩)
      (by decide) (by decide) (by decide) (by decide) (by decide)
  · refine (open_context_menu_timeout_spec.2.2 envNoMenu (envGood 2) 0 10 ?_).1
    intro j
    rcases Nat.lt_or_ge j 2 with hj | hj
    · interval_cases j <;> exact ⟨rfl, rfl⟩
    · have h1 : envNoMenu j = none := by
        rw [envNoMenu, if_neg (by omega), if_neg (by omega)]
      have h2 : envGood 2 j = none := by
        rw [envGood, if_neg (by omega)]
      rw [h1, h2]
      trivial

/-- C8: `trigger_download_command` returns true exactly on the invoke path or
the fallback pointer-click path; a found item whose `invoke()` succeeds is
invoked, one whose `invoke()` fails but whose click succeeds is clicked, one
failing both takes the escape-key path and returns false, and when the item
is never found within the short timeout the result is the direct failure
path, which invokes nothing and returns false. -/
theorem trigger_download_command_spec :
    (∀ found, (trigger_download_command found).ret = true ↔
      trigger_download_command found = TriggerResult.invoked ∨
      trigger_download_command found = TriggerResult.clicked) ∧
    (∀ d : DownloadMenuItem, d.invoke_ok = true →
      trigger_download_command (some d) = TriggerResult.invoked) ∧
    (∀ d : DownloadMenuItem, d.invoke_ok = false → d.click_ok = true →
      trigger_download_command (some d) = TriggerResult.clicked) ∧
    (∀ d : DownloadMenuItem, d.invoke_ok = false → d.click_ok = false →
      trigger_download_command (some d) = TriggerResult.escaped) ∧
    trigger_download_command none = TriggerResult.notFound ∧
    TriggerResult.escaped.ret = false ∧
    TriggerResult.notFound.ret = false := by
  refine ⟨?_, ?_, ?_, ?_, rfl, rfl, rfl⟩
  · intro found
    cases found with
    | none => simp [trigger_download_command, TriggerResult.ret]
    | some d =>
      rcases d with ⟨i, c⟩
      cases i <;> cases c <;> simp [trigger_download_command, TriggerResult.ret]
  · intro d h
    simp [trigger_download_command, h]
  · intro d h1 h2
    simp [trigger_download_command, h1, h2]
  · intro d h1 h2
    simp [trigger_download_command, h1, h2]

/-- C8, witness: an item failing both invoke and click ends on the escape
path; one failing invoke but clickable ends on the click path. -/
theorem trigger_download_command_spec_witness :
    trigger_download_command (some ⟨false, false⟩) = TriggerResult.escaped ∧
    trigger_download_command (some ⟨false, true⟩) = TriggerResult.clicked :=
  ⟨trigger_download_command_spec.2.2.2.1 ⟨false, false⟩ rfl rfl,
   trigger_download_command_spec.2.2.1 ⟨false, true⟩ rfl rfl⟩

/-- C9, counterexample: the claim as stated is false. On a 10001-item library
with pairwise distinct identities and an unknown total, the focused item
sitting at 0-based position 10000 is beyond the `DEFAULT_MAX_ITERATIONS`
scan bound, so `find_start_index` returns 0, not 10000. -/
theorem find_start_index_counterexample : ¬C9_statement := by
  intro h
  have hD : DEFAULT_MAX_ITERATIONS = 10000 := rfl
  have h10000 : bigList 10000 = some (runtimeInfo 10000) := by
    rw [bigList, runtimeLibrary, if_pos (by omega)]
  have hclaim := h bigList (runtimeInfo 10000) none 10000 (runtimeInfo 10000)
    (runtimeLibrary_unique _) h10000 rfl
  have hzero : find_start_index bigList (some (runtimeInfo 10000)) none = 0 := by
    simp only [find_start_index]
    cases hs : scan_for bigList (item_identity (runtimeInfo 10000)) 0
        DEFAULT_MAX_ITERATIONS with
    | none => rfl
    | some k =>
      obtain ⟨_, hk2, c, hc, hcid⟩ :=
        scan_for_sound bigList _ DEFAULT_MAX_ITERATIONS 0 k hs
      rw [bigList, runtimeLibrary, if_pos (by omega)] at hc
      obtain rfl : runtimeInfo k = c := Option.some.inj hc
      rw [runtimeInfo_identity, runtimeInfo_identity] at hcid
      have hk10 : (k : Int) = 10000 := by simpa using hcid
      omega
  rw [hclaim] at hzero
  exact absurd hzero (by decide)

/-- C9 (amended): with no focused item `find_start_index` returns 0; when the
focused item's identity matches the uniquely identified item at position `k`,
the items before `k` are fetchable, and `k` lies inside the scan window —
below the known total, or below `DEFAULT_MAX_ITERATIONS` when the total is
unknown — the linear scan from 0 stops at the first match and returns `k`;
and when no index in the scan window matches, it returns 0. -/
theorem find_start_index_spec :
    (∀ (get_item : Nat → Option ElementInfo) (total : Option Int),
      find_start_index get_item none total = 0) ∧
    (∀ (get_item : Nat → Option ElementInfo) (target : ElementInfo)
        (total : Option Int) (k : Nat) (it : ElementInfo),
      k < scan_bound total →
      (∀ i j a b, get_item i = some a → get_item j = some b → i ≠ j →
        item_identity a ≠ item_identity b) →
      (∀ i, i < k → (get_item i).isSome = true) →
      get_item k = some it →
      item_identity it = item_identity target →
      find_start_index get_item (some target) total = k) ∧
    (∀ (get_item : Nat → Option ElementInfo) (target : ElementInfo)
        (total : Option Int),
      (∀ i a, i < scan_bound total → get_item i = some a →
        item_identity a ≠ item_identity target) →
      find_start_index get_item (some target) total = 0) := by
  refine ⟨?_, ?_, ?_⟩
  · intro g t
    cases t <;> rfl
  · intro g target total k it hk huniq hsome hkit hid
    have hfirst : ∀ j, 0 ≤ j → j < k →
        ∃ c, g j = some c ∧ item_identity c ≠ item_identity target := by
      intro j _ hj
      obtain ⟨c, hc⟩ := Option.isSome_iff_exists.mp (hsome j hj)
      refine ⟨c, hc, fun hcid => ?_⟩
      exact huniq j k c it hc hkit (by omega) (hcid.trans hid.symm)
    have hscan := scan_for_first g (item_identity target) (scan_bound total) 0 k
      (Nat.zero_le k) (by omega) hfirst it hkit hid
    cases total with
    | none =>
      simp only [find_start_index]
      rw [show scan_bound none = DEFAULT_MAX_ITERATIONS from rfl] at hscan
      rw [hscan]
      rfl
    | some n =>
      simp only [find_start_index]
      rw [show scan_bound (some n) = n.toNat from rfl] at hscan
      rw [hscan]
      rfl
  · intro g target total hno
    cases total with
    | none =>
      simp only [find_start_index]
      cases hs : scan_for g (item_identity target) 0 DEFAULT_MAX_ITERATIONS with
      | none => rfl
      | some k =>
        obtain ⟨_, hk2, c, hc, hcid⟩ :=
          scan_for_sound g _ DEFAULT_MAX_ITERATIONS 0 k hs
        exact absurd hcid
          (hno k c (show k < DEFAULT_MAX_ITERATIONS by omega) hc)
    | some n =>
      simp only [find_start_index]
      cases hs : scan_for g (item_identity target) 0 n.toNat with
      | none => rfl
      | some k =>
        obtain ⟨_, hk2, c, hc, hcid⟩ := scan_for_sound g _ n.toNat 0 k hs
        exact absurd hcid (hno k c (show k < n.toNat by omega) hc)

/-- C9, witness: on the uniquely identified three-item library with known
total 3, the focused item matching position 1 resolves to start index 1, and
with no focused item the resolution is 0. -/
theorem find_start_index_spec_witness :
    find_start_index threeList none (some 3) = 0 ∧
    find_start_index threeList (some (runtimeInfo 1)) (some 3) = 1 := by
  constructor
  · exact find_start_index_spec.1 threeList (some 3)
  · refine find_start_index_spec.2.1 threeList (runtimeInfo 1) (some 3) 1
      (runtimeInfo 1) (by decide) (runtimeLibrary_unique 3) ?_ (by decide) rfl
    intro i hi
    interval_cases i
    decide

/-- C10: `item_identity` yields a fallback-kind identity both when the
element exposes no runtime identifier at all and when the exposed runtime
identifier is the empty sequence (Python truthiness treats both as falsy), so
an element with an empty runtime id is identified by its name, automation id
and control type. -/
theorem item_identity_falsy_runtime_spec :
    ∀ (n : String) (a c : Option String),
      item_identity ⟨some [], n, a, c⟩ = ElementIdentity.fallback n a c ∧
      item_identity ⟨none, n, a, c⟩ = ElementIdentity.fallback n a c := by
  intro n a c
  exact ⟨rfl, rfl⟩
